import Mathlib

/-!
Verification of the tempo-trainer metronome (src/src/app/(index)/index.tsx).

The repository holds two variants of the route file.  Both variants share the
same time-signature table, subdivision multipliers, the derived quantities
`totalSubdivisions` and `intervalMs`, the `toggleAccent` update and the
`(beat + 1) % totalSubdivisions` tick advance.  The second variant adds the
compound subdivision kinds, `getSubdivisionPattern`, the BPM slider and the
`useEffect` that re-arms the repeating timer; the first variant has the
`adjustBpm` button handler.  Numbers that are JavaScript floating-point
numbers in the source are modelled as exact rationals (every value that
actually arises — beat counts, multipliers, millisecond intervals — is a
small rational, far below any double-precision rounding).
-/

namespace TempoTrainer

/-- `type TimeSignature = { top: number; bottom: number }`. -/
structure TimeSignature where
  top : ℕ
  bottom : ℕ
deriving DecidableEq, Repr

/-- The offered list `TIME_SIGNATURES` (identical in both variants). -/
def TIME_SIGNATURES : List TimeSignature :=
  [⟨2, 4⟩, ⟨3, 4⟩, ⟨4, 4⟩, ⟨5, 4⟩, ⟨6, 8⟩, ⟨7, 8⟩, ⟨9, 8⟩, ⟨12, 8⟩]

/-- `type Subdivision` of the second variant: five simple kinds plus the two
compound patterned kinds. -/
inductive Subdivision where
  | whole
  | half
  | quarter
  | eighth
  | sixteenth
  | eighthSixteenthSixteenth
  | sixteenthSixteenthEighth
deriving DecidableEq, Repr

/-- The offered list `SUBDIVISIONS` of the second variant. -/
def SUBDIVISIONS : List Subdivision :=
  [.whole, .half, .quarter, .eighth, .sixteenth,
   .eighthSixteenthSixteenth, .sixteenthSixteenthEighth]

/-- `getSubdivisionMultiplier` — the fixed multiplier of each kind. -/
def getSubdivisionMultiplier : Subdivision → ℕ
  | .whole => 1
  | .half => 2
  | .quarter => 4
  | .eighth => 8
  | .sixteenth => 16
  | .eighthSixteenthSixteenth => 16
  | .sixteenthSixteenthEighth => 16

/-- `totalSubdivisions = beatsPerMeasure * (subdivisionMultiplier /
timeSignature.bottom)` where `beatsPerMeasure = timeSignature.top`.
JavaScript `number` division, modelled exactly over ℚ. -/
def totalSubdivisions (ts : TimeSignature) (sub : Subdivision) : ℚ :=
  (ts.top : ℚ) * ((getSubdivisionMultiplier sub : ℚ) / (ts.bottom : ℚ))

/-- `intervalMs = 60000 / bpm / (subdivisionMultiplier / timeSignature.bottom)`. -/
def intervalMs (bpm : ℚ) (ts : TimeSignature) (sub : Subdivision) : ℚ :=
  60000 / bpm / ((getSubdivisionMultiplier sub : ℚ) / (ts.bottom : ℚ))

/-- `getSubdivisionPattern(subdivision, beatIndex, totalBeats)`: true iff the
beat at `beatIndex` is played.  The `totalBeats` argument is accepted and
ignored, as in the source. -/
def getSubdivisionPattern (subdivision : Subdivision) (beatIndex : ℕ)
    (totalBeats : ℕ) : Bool :=
  if subdivision = .eighthSixteenthSixteenth then
    -- Within each group of 4 sixteenths: play beats 0, 2, 3
    let posInGroup := beatIndex % 4
    posInGroup == 0 || posInGroup == 2 || posInGroup == 3
  else if subdivision = .sixteenthSixteenthEighth then
    -- Within each group of 4 sixteenths: play beats 0, 1, 2
    let posInGroup := beatIndex % 4
    posInGroup == 0 || posInGroup == 1 || posInGroup == 2
  else
    -- For regular subdivisions, play all beats
    true

/-- `adjustBpm`: `setBpm(prev => Math.max(20, Math.min(300, prev + delta)))`
(first variant).  The result as a function of the previous value and the
delta. -/
def adjustBpm (prev delta : ℤ) : ℤ :=
  max 20 (min 300 (prev + delta))

/-- `toggleAccent` body: copy the set, then delete `beat` if present else
insert it.  The returned (fresh) set as a function of the old one. -/
def toggleAccentSet (accents : Finset ℕ) (beat : ℕ) : Finset ℕ :=
  if beat ∈ accents then accents.erase beat else insert beat accents

/-- The tick advance performed on each timer fire:
`beat = (beat + 1) % totalSubdivisions` (first variant) /
`nextBeat = (prevBeat + 1) % totalSubdivisions` (second variant), for the
configurations where `totalSubdivisions` is the positive integer `total`. -/
def advanceTick (total tick : ℕ) : ℕ :=
  (tick + 1) % total

/-! ## Scheduler state machine

The component state of the second variant: the `useState` hooks together with
the repeating-timer resource held in `intervalRef`.  `timerIntervalMs` is the
interval the armed timer was last set with; it is meaningful only while
`timerArmed` is true.  The `useEffect` with dependency list
`[intervalMs, isPlaying, totalSubdivisions, subdivision, accents]` clears the
old interval after every state update that touches a dependency and re-arms at
the current `intervalMs` when `isPlaying` — `applyEffect` below. -/

structure MetronomeState where
  bpm : ℤ
  timeSignature : TimeSignature
  subdivision : Subdivision
  isPlaying : Bool
  currentBeat : ℚ
  accents : Finset ℕ
  timerArmed : Bool
  timerIntervalMs : ℚ
deriving DecidableEq

/-- The re-arming `useEffect` of the second variant: cleanup clears any armed
interval; while playing a fresh interval is set at the current `intervalMs`. -/
def applyEffect (s : MetronomeState) : MetronomeState :=
  if s.isPlaying then
    { s with timerArmed := true,
             timerIntervalMs := intervalMs (s.bpm : ℚ) s.timeSignature s.subdivision }
  else
    { s with timerArmed := false }

/-- Initial hook values: `bpm = 120`, `4/4`, `quarter`, not playing,
`currentBeat = -1`, `accents = new Set([0])`; no timer armed. -/
def initialState : MetronomeState :=
  { bpm := 120
    timeSignature := ⟨4, 4⟩
    subdivision := .quarter
    isPlaying := false
    currentBeat := -1
    accents := {0}
    timerArmed := false
    timerIntervalMs := 0 }

/-- `togglePlay`: when playing, `setCurrentBeat(-1); setIsPlaying(false)` (the
effect cleanup then disarms the timer); when stopped, `setCurrentBeat(0);
setIsPlaying(true)` (the effect then arms the timer).  Sound playback is the
out-of-scope audio collaborator. -/
def togglePlayOp (s : MetronomeState) : MetronomeState :=
  if s.isPlaying then
    applyEffect { s with currentBeat := -1, isPlaying := false }
  else
    applyEffect { s with currentBeat := 0, isPlaying := true }

/-- A BPM change through the slider (`onValueChange={setBpm}`); the slider
component only emits values in `[minimumValue, maximumValue] = [20, 300]`,
captured by the guard on the step relation below. -/
def setBpmOp (s : MetronomeState) (v : ℤ) : MetronomeState :=
  applyEffect { s with bpm := v }

/-- Time-signature button press: `setTimeSignature(sig); setAccents(new
Set([0])); setCurrentBeat(-1)`. -/
def setTimeSigOp (s : MetronomeState) (sig : TimeSignature) : MetronomeState :=
  applyEffect { s with timeSignature := sig, accents := {0}, currentBeat := -1 }

/-- Subdivision button press: `setSubdivision(sub); setAccents(new Set([0]));
setCurrentBeat(-1)`. -/
def setSubdivisionOp (s : MetronomeState) (sub : Subdivision) : MetronomeState :=
  applyEffect { s with subdivision := sub, accents := {0}, currentBeat := -1 }

/-- Beat-indicator press: `toggleAccent(i)` replaces the accent set by the
toggled copy; nothing else is written. -/
def toggleAccentOp (s : MetronomeState) (beat : ℕ) : MetronomeState :=
  applyEffect { s with accents := toggleAccentSet s.accents beat }

/-- JavaScript `%` on numbers, for the nonnegative operands arising in the
tick callback (where truncation and flooring agree). -/
def jsMod (a n : ℚ) : ℚ :=
  a - n * (⌊a / n⌋ : ℤ)

/-- A timer fire: `setCurrentBeat(prev => (prev + 1) % totalSubdivisions)`.
The interval only exists while playing, so the operation is the identity
otherwise. -/
def tickOp (s : MetronomeState) : MetronomeState :=
  if s.isPlaying then
    { s with currentBeat :=
        jsMod (s.currentBeat + 1) (totalSubdivisions s.timeSignature s.subdivision) }
  else s

/-- One user or timer event, with its input-boundary guards: the slider keeps
BPM within `[20, 300]` and time signatures come from the offered list. -/
inductive Step : MetronomeState → MetronomeState → Prop where
  | togglePlay (s : MetronomeState) : Step s (togglePlayOp s)
  | setBpm (s : MetronomeState) (v : ℤ) (h20 : 20 ≤ v) (h300 : v ≤ 300) :
      Step s (setBpmOp s v)
  | setTimeSig (s : MetronomeState) (sig : TimeSignature)
      (hsig : sig ∈ TIME_SIGNATURES) : Step s (setTimeSigOp s sig)
  | setSubdivision (s : MetronomeState) (sub : Subdivision) :
      Step s (setSubdivisionOp s sub)
  | toggleAccent (s : MetronomeState) (beat : ℕ) : Step s (toggleAccentOp s beat)
  | tick (s : MetronomeState) : Step s (tickOp s)

/-- States reachable from the initial hook values by user and timer events. -/
inductive Reachable : MetronomeState → Prop where
  | init : Reachable initialState
  | step {s s' : MetronomeState} : Reachable s → Step s s' → Reachable s'

/-- The scheduler invariant: when stopped the beat is `-1` and no timer is
armed; while playing the timer is armed. -/
def SchedulerInv (s : MetronomeState) : Prop :=
  (s.isPlaying = false → s.currentBeat = -1 ∧ s.timerArmed = false) ∧
  (s.isPlaying = true → s.timerArmed = true)

/-! ## Helper lemmas -/

lemma schedulerInv_applyEffect (s : MetronomeState)
    (h : s.isPlaying = false → s.currentBeat = -1) :
    SchedulerInv (applyEffect s) := by
  cases hp : s.isPlaying with
  | false =>
      refine ⟨fun _ => ⟨?_, ?_⟩, fun ht => ?_⟩
      · simpa [applyEffect, hp] using h hp
      · simp [applyEffect, hp]
      · simp [applyEffect, hp] at ht
  | true =>
      refine ⟨fun hf => ?_, fun _ => ?_⟩
      · simp [applyEffect, hp] at hf
      · simp [applyEffect, hp]

lemma schedulerInv_step {s s' : MetronomeState}
    (hinv : SchedulerInv s) (hstep : Step s s') : SchedulerInv s' := by
  cases hstep with
  | togglePlay =>
      unfold togglePlayOp
      cases hp : s.isPlaying with
      | false =>
          simp only [hp, Bool.false_eq_true, if_neg, ite_false]
          exact schedulerInv_applyEffect _ (by intro hf; simp at hf)
      | true =>
          simp only [hp, ite_true]
          exact schedulerInv_applyEffect _ (by intro _; simp)
  | setBpm v h20 h300 =>
      exact schedulerInv_applyEffect _ (fun hf => (hinv.1 hf).1)
  | setTimeSig sig hsig =>
      exact schedulerInv_applyEffect _ (by intro _; simp)
  | setSubdivision sub =>
      exact schedulerInv_applyEffect _ (by intro _; simp)
  | toggleAccent beat =>
      exact schedulerInv_applyEffect _ (fun hf => (hinv.1 hf).1)
  | tick =>
      unfold tickOp
      cases hp : s.isPlaying with
      | false => simpa using hinv
      | true =>
          simp only [hp, ite_true]
          exact ⟨fun hf => by simp [hp] at hf, fun _ => by simpa using hinv.2 hp⟩

lemma schedulerInv_reachable {s : MetronomeState} (h : Reachable s) :
    SchedulerInv s := by
  induction h with
  | init => exact ⟨fun _ => ⟨rfl, rfl⟩, fun ht => by simp [initialState] at ht⟩
  | step _ hs ih => exact schedulerInv_step ih hs

lemma mem_toggleAccentSet_self (a : Finset ℕ) (beat : ℕ) :
    beat ∈ toggleAccentSet a beat ↔ beat ∉ a := by
  by_cases h : beat ∈ a <;> simp [toggleAccentSet, h]

lemma mem_toggleAccentSet_of_ne (a : Finset ℕ) {j beat : ℕ} (h : j ≠ beat) :
    j ∈ toggleAccentSet a beat ↔ j ∈ a := by
  by_cases hb : beat ∈ a <;> simp [toggleAccentSet, hb, Finset.mem_erase, h]

lemma advanceTick_iterate (total : ℕ) (k t : ℕ) :
    (advanceTick total)^[k + 1] t = (t + k + 1) % total := by
  induction k with
  | zero => simp [advanceTick]
  | succ k ih =>
      rw [Function.iterate_succ_apply', ih]
      unfold advanceTick
      rw [Nat.mod_add_mod]
      ring_nf

lemma totalSubdivisions_two_four_whole :
    totalSubdivisions ⟨2, 4⟩ .whole = 1 / 2 := by
  norm_num [totalSubdivisions, getSubdivisionMultiplier]

/-! ## Claim theorems -/

/-- C1, counterexample: the configuration 2/4 (which is in the offered list)
with the "whole" subdivision kind (multiplier 1) gives
`totalSubdivisions = 2 * (1 / 4) = 1/2`, which is not a positive integer. -/
theorem totalSubdivisions_two_four_whole_not_pos_int :
    (⟨2, 4⟩ : TimeSignature) ∈ TIME_SIGNATURES ∧
    totalSubdivisions ⟨2, 4⟩ .whole = 1 / 2 ∧
    ¬ ∃ n : ℕ, 0 < n ∧ totalSubdivisions ⟨2, 4⟩ .whole = (n : ℚ) := by
  refine ⟨by decide, totalSubdivisions_two_four_whole, ?_⟩
  rintro ⟨n, hn, he⟩
  rw [totalSubdivisions_two_four_whole] at he
  have h1 : (1 : ℚ) ≤ (n : ℚ) := by exact_mod_cast hn
  rw [← he] at h1
  linarith

/-- C1, amended: for every offered time signature and every subdivision kind,
`totalSubdivisions = timeSignature.top * (subdivisionMultiplier /
timeSignature.bottom)` is a positive integer whenever `timeSignature.bottom`
divides `timeSignature.top * subdivisionMultiplier` (for the other
combinations, such as 2/4 with the "whole" kind, the value is a non-integer
rational). -/
theorem totalSubdivisions_pos_int_of_dvd (ts : TimeSignature)
    (sub : Subdivision) (hts : ts ∈ TIME_SIGNATURES)
    (hdvd : ts.bottom ∣ ts.top * getSubdivisionMultiplier sub) :
    ∃ n : ℕ, 0 < n ∧ totalSubdivisions ts sub = (n : ℚ) := by
  have hpos : 0 < ts.top ∧ 0 < ts.bottom := by
    fin_cases hts <;> exact ⟨by norm_num, by norm_num⟩
  have hm : 0 < getSubdivisionMultiplier sub := by
    cases sub <;> norm_num [getSubdivisionMultiplier]
  obtain ⟨k, hk⟩ := hdvd
  refine ⟨k, ?_, ?_⟩
  · have h1 : 0 < ts.bottom * k := hk ▸ Nat.mul_pos hpos.1 hm
    exact Nat.pos_of_ne_zero (fun h0 => by simp [h0] at h1)
  · have hb : (ts.bottom : ℚ) ≠ 0 := by exact_mod_cast hpos.2.ne'
    unfold totalSubdivisions
    rw [mul_div_assoc', div_eq_iff hb]
    exact_mod_cast hk.trans (Nat.mul_comm ts.bottom k)

/-- Witness for the amended C1 at the concrete configuration 4/4 with the
quarter kind. -/
theorem totalSubdivisions_pos_int_of_dvd_witness :
    (⟨4, 4⟩ : TimeSignature) ∈ TIME_SIGNATURES ∧
    (⟨4, 4⟩ : TimeSignature).bottom ∣
      (⟨4, 4⟩ : TimeSignature).top * getSubdivisionMultiplier .quarter ∧
    ∃ n : ℕ, 0 < n ∧ totalSubdivisions ⟨4, 4⟩ .quarter = (n : ℚ) :=
  ⟨by decide, by decide,
    totalSubdivisions_pos_int_of_dvd ⟨4, 4⟩ .quarter (by decide) (by decide)⟩

/-- C2: `intervalMs = 60000 / bpm / (subdivisionMultiplier /
timeSignature.bottom)` evaluates to 500 ms at bpm 120, 4/4, quarter
(multiplier 4), and to 500 ms at bpm 60, 4/4, eighth (multiplier 8). -/
theorem intervalMs_values :
    intervalMs 120 ⟨4, 4⟩ .quarter = 500 ∧ intervalMs 60 ⟨4, 4⟩ .eighth = 500 := by
  constructor <;> norm_num [intervalMs, getSubdivisionMultiplier]

/-- C3: simple kinds are audible at every tick index; the
"eighth-sixteenth-sixteenth" kind is audible exactly when `i % 4 ∈ {0,2,3}`
(silent at `i % 4 = 1`); the "sixteenth-sixteenth-eighth" kind is audible
exactly when `i % 4 ∈ {0,1,2}`. -/
theorem getSubdivisionPattern_audibility (sub : Subdivision) (i n : ℕ) :
    ((sub = .whole ∨ sub = .half ∨ sub = .quarter ∨ sub = .eighth ∨
        sub = .sixteenth) → getSubdivisionPattern sub i n = true) ∧
    (getSubdivisionPattern .eighthSixteenthSixteenth i n = true ↔
      i % 4 = 0 ∨ i % 4 = 2 ∨ i % 4 = 3) ∧
    (i % 4 = 1 → getSubdivisionPattern .eighthSixteenthSixteenth i n = false) ∧
    (getSubdivisionPattern .sixteenthSixteenthEighth i n = true ↔
      i % 4 = 0 ∨ i % 4 = 1 ∨ i % 4 = 2) := by
  refine ⟨?_, ?_, ?_, ?_⟩
  · rintro (rfl | rfl | rfl | rfl | rfl) <;> simp [getSubdivisionPattern]
  · simp [getSubdivisionPattern, or_assoc]
  · intro h1; simp [getSubdivisionPattern, h1]
  · simp [getSubdivisionPattern, or_assoc]

/-- Witness for C3 at concrete inputs: the quarter kind sounds at index 3 and
the "eighth-sixteenth-sixteenth" kind is silent at index 5 (5 % 4 = 1). -/
theorem getSubdivisionPattern_audibility_witness :
    getSubdivisionPattern .quarter 3 16 = true ∧
    getSubdivisionPattern .eighthSixteenthSixteenth 5 16 = false :=
  ⟨(getSubdivisionPattern_audibility .quarter 3 16).1 (Or.inr (Or.inr (Or.inl rfl))),
    (getSubdivisionPattern_audibility .eighthSixteenthSixteenth 5 16).2.2.1 (by decide)⟩

/-- C4: `adjustBpm` stores `Math.max(20, Math.min(300, prev + delta))`: for
every previous value and every delta the stored bpm lies in `[20, 300]` (the
function is total, so no error is raised). -/
theorem adjustBpm_clamped (prev delta : ℤ) :
    20 ≤ adjustBpm prev delta ∧ adjustBpm prev delta ≤ 300 := by
  unfold adjustBpm
  omega

/-- C5: each timer fire advances the tick by
`nextTick = (currentTick + 1) % totalSubdivisions`; applying the advance
exactly `totalSubdivisions` times from any reachable tick value (one below
`totalSubdivisions`) returns to the starting value. -/
theorem advanceTick_round_trip (total t : ℕ) (h0 : 0 < total)
    (ht : t < total) : (advanceTick total)^[total] t = t := by
  obtain ⟨m, rfl⟩ : ∃ m, total = m + 1 := ⟨total - 1, by omega⟩
  rw [advanceTick_iterate]
  have : t + m + 1 = t + (m + 1) := by ring
  rw [this, Nat.add_mod_right]
  exact Nat.mod_eq_of_lt ht

/-- Witness for C5 at `totalSubdivisions = 4`, starting tick 2. -/
theorem advanceTick_round_trip_witness :
    0 < 4 ∧ 2 < 4 ∧ (advanceTick 4)^[4] 2 = 2 :=
  ⟨by decide, by decide, advanceTick_round_trip 4 2 (by decide) (by decide)⟩

/-- C6: in every reachable state, the scheduler is Stopped (not playing, with
`currentBeat = -1` and no timer armed) or Running (playing, with the timer
armed); moreover `stop()` — `togglePlay` from a Running state — always leaves
the timer disarmed, `currentBeat = -1`, and the system Stopped. -/
theorem scheduler_stopped_or_running (s : MetronomeState) (h : Reachable s) :
    (s.isPlaying = false → s.currentBeat = -1 ∧ s.timerArmed = false) ∧
    (s.isPlaying = true → s.timerArmed = true) ∧
    (s.isPlaying = true →
      (togglePlayOp s).isPlaying = false ∧
      (togglePlayOp s).currentBeat = -1 ∧
      (togglePlayOp s).timerArmed = false) := by
  have hinv := schedulerInv_reachable h
  refine ⟨hinv.1, hinv.2, fun hp => ?_⟩
  simp [togglePlayOp, hp, applyEffect]

/-- Witness for C6 at the Running state reached by one `togglePlay` from the
initial state. -/
theorem scheduler_stopped_or_running_witness :
    (togglePlayOp initialState).isPlaying = true ∧
    (togglePlayOp initialState).timerArmed = true ∧
    (togglePlayOp (togglePlayOp initialState)).isPlaying = false ∧
    (togglePlayOp (togglePlayOp initialState)).currentBeat = -1 ∧
    (togglePlayOp (togglePlayOp initialState)).timerArmed = false := by
  have h := scheduler_stopped_or_running (togglePlayOp initialState)
    (Reachable.step Reachable.init (Step.togglePlay initialState))
  exact ⟨rfl, h.2.1 rfl, (h.2.2 rfl).1, (h.2.2 rfl).2.1, (h.2.2 rfl).2.2⟩

/-- C7: toggling the accent at any index twice in succession restores the
original accent set. -/
theorem toggleAccent_double_restores (s : MetronomeState) (beat : ℕ) :
    (toggleAccentOp (toggleAccentOp s beat) beat).accents = s.accents := by
  have hsets : ∀ (a : Finset ℕ), toggleAccentSet (toggleAccentSet a beat) beat = a := by
    intro a
    by_cases h : beat ∈ a
    · simp [toggleAccentSet, h, Finset.insert_erase h]
    · simp [toggleAccentSet, h, Finset.erase_insert h]
  simp [toggleAccentOp, applyEffect]
  split <;> simp [hsets]

/-- C8: changing the time signature, and likewise the subdivision, resets
`currentBeat` to `-1` and the accent set to `{0}`, from any state (running or
not); the accent set also starts as `{0}`. -/
theorem config_change_resets (s : MetronomeState) (sig : TimeSignature)
    (sub : Subdivision) :
    (setTimeSigOp s sig).currentBeat = -1 ∧ (setTimeSigOp s sig).accents = {0} ∧
    (setSubdivisionOp s sub).currentBeat = -1 ∧
    (setSubdivisionOp s sub).accents = {0} ∧
    initialState.accents = {0} := by
  refine ⟨?_, ?_, ?_, ?_, rfl⟩ <;>
    simp [setTimeSigOp, setSubdivisionOp, applyEffect] <;> split <;> simp

/-- C9: a bpm change while Running (through the slider, whose values stay in
`[20, 300]`) stores the new bpm, leaves the system Running with the timer
armed at the new `intervalMs` computed from the new bpm, and leaves
`currentBeat` unchanged. -/
theorem bpm_change_live (s : MetronomeState) (v : ℤ) (hp : s.isPlaying = true)
    (h20 : 20 ≤ v) (h300 : v ≤ 300) :
    (setBpmOp s v).bpm = v ∧
    (setBpmOp s v).isPlaying = true ∧
    (setBpmOp s v).timerArmed = true ∧
    (setBpmOp s v).timerIntervalMs =
      intervalMs (v : ℚ) s.timeSignature s.subdivision ∧
    (setBpmOp s v).currentBeat = s.currentBeat := by
  simp [setBpmOp, applyEffect, hp]

/-- Witness for C9: from the Running state reached by one `togglePlay`,
setting bpm to 90. -/
theorem bpm_change_live_witness :
    (setBpmOp (togglePlayOp initialState) 90).bpm = 90 ∧
    (setBpmOp (togglePlayOp initialState) 90).isPlaying = true ∧
    (setBpmOp (togglePlayOp initialState) 90).timerArmed = true ∧
    (setBpmOp (togglePlayOp initialState) 90).timerIntervalMs =
      intervalMs (90 : ℚ) (togglePlayOp initialState).timeSignature
        (togglePlayOp initialState).subdivision ∧
    (setBpmOp (togglePlayOp initialState) 90).currentBeat =
      (togglePlayOp initialState).currentBeat :=
  bpm_change_live (togglePlayOp initialState) 90 rfl (by decide) (by decide)

/-- C10: `toggleAccent(beat)` flips the membership of `beat` in the accent set
and changes nothing else: every other index keeps its membership, and bpm,
time signature, subdivision, current beat and the playing flag are unchanged
(the update replaces the set by a fresh copy — value semantics, captured by
the functional update). -/
theorem toggleAccent_frame (s : MetronomeState) (beat : ℕ) :
    (toggleAccentOp s beat).bpm = s.bpm ∧
    (toggleAccentOp s beat).timeSignature = s.timeSignature ∧
    (toggleAccentOp s beat).subdivision = s.subdivision ∧
    (toggleAccentOp s beat).currentBeat = s.currentBeat ∧
    (toggleAccentOp s beat).isPlaying = s.isPlaying ∧
    (beat ∈ (toggleAccentOp s beat).accents ↔ beat ∉ s.accents) ∧
    ∀ j : ℕ, j ≠ beat →
      (j ∈ (toggleAccentOp s beat).accents ↔ j ∈ s.accents) := by
  have haccents : (toggleAccentOp s beat).accents = toggleAccentSet s.accents beat := by
    simp [toggleAccentOp, applyEffect]
    split <;> simp
  refine ⟨?_, ?_, ?_, ?_, ?_, ?_, ?_⟩
  · simp [toggleAccentOp, applyEffect]; split <;> simp
  · simp [toggleAccentOp, applyEffect]; split <;> simp
  · simp [toggleAccentOp, applyEffect]; split <;> simp
  · simp [toggleAccentOp, applyEffect]; split <;> simp
  · simp [toggleAccentOp, applyEffect]; split <;> simp
  · rw [haccents]; exact mem_toggleAccentSet_self s.accents beat
  · intro j hj; rw [haccents]; exact mem_toggleAccentSet_of_ne s.accents hj

/-- Witness for C10 at the initial state, toggling index 2: index 2 enters the
set, index 0 keeps its membership, bpm unchanged. -/
theorem toggleAccent_frame_witness :
    (toggleAccentOp initialState 2).bpm = initialState.bpm ∧
    (2 ∈ (toggleAccentOp initialState 2).accents ↔ 2 ∉ initialState.accents) ∧
    (0 ∈ (toggleAccentOp initialState 2).accents ↔ 0 ∈ initialState.accents) :=
  ⟨(toggleAccent_frame initialState 2).1,
    (toggleAccent_frame initialState 2).2.2.2.2.2.1,
    (toggleAccent_frame initialState 2).2.2.2.2.2.2 0 (by decide)⟩

end TempoTrainer
